import Mathlib

/-!
# Verification of the resumable batch corpus-processing pipeline

Shallow embedding of the four Python modules of the repository
(`clone_github.py`, `count_repo_token.py`, `Pdfs/pdf_download.py`,
`Pdfs/pdf_text_token.py`) together with theorems settling the frozen
claims about resume correctness, ledger durability, batch bounds,
failure containment, skip resolution, upsert semantics, file filtering
and CLI argument handling.

Modelling conventions:
* CSV files are modelled as lists of typed rows; the persisted contents
  of a ledger file are the list value carried through each step.
* Exceptions are modelled with `Option`/`Except` (`none`/`.error` = the
  Python call raised).
* File sizes are exact naturals (bytes); the Python float comparison
  `bytes / (1024*1024) >= 100` is modelled exactly as
  `100 * 1024 * 1024 <= bytes`; both sides are exact.
* External collaborators (git, the HuggingFace tokenizer, the
  filesystem, MIME sniffing) are parameters (oracles) of the embedded
  functions, as the spec treats them as external.
* The Python string primitives (`strip`, `lower`, `split`,
  `startswith`, `replace`, `int(...)`) are given executable char-list
  implementations below, so every definition evaluates by `decide`/`rfl`.
-/

/-! ## Python string primitives -/

/-- `pat.isPrefixOf s` over char lists (Bool, structurally recursive). -/
def listPrefix : List Char → List Char → Bool
  | [], _ => true
  | _ :: _, [] => false
  | a :: as, b :: bs => a = b && listPrefix as bs

/-- Python `s.startswith(pre)`. -/
def sStartsWith (s pre : String) : Bool := listPrefix pre.toList s.toList

/-- Python `s.endswith(suf)`. -/
def sEndsWith (s suf : String) : Bool := listPrefix suf.toList.reverse s.toList.reverse

/-- Substring occurrence over char lists. -/
def containsSub (pat : List Char) : List Char → Bool
  | [] => pat.isEmpty
  | c :: rest => listPrefix pat (c :: rest) || containsSub pat rest

/-- Python's `pat in s` substring test (for nonempty `pat`). -/
def strContains (s pat : String) : Bool := containsSub pat.toList s.toList

/-- `s.split(sep)` for a single-character separator, over char lists. -/
def splitChar (sep : Char) : List Char → List (List Char)
  | [] => [[]]
  | c :: rest =>
      if c = sep then [] :: splitChar sep rest
      else
        match splitChar sep rest with
        | [] => [[c]]
        | w :: ws => (c :: w) :: ws

/-- Python `filepath.split("/")` (also `os.sep` on POSIX). -/
def pathParts (s : String) : List String := (splitChar '/' s.toList).map String.mk

/-- The whitespace class of Python's `str.strip()` / `str.split()`. -/
def pyIsSpace (c : Char) : Bool :=
  c.toNat = 32 || c.toNat = 9 || c.toNat = 10 || c.toNat = 13 || c.toNat = 11 || c.toNat = 12

/-- Python `s.strip()`. -/
def pyStrip (s : String) : String :=
  String.mk (((s.toList.dropWhile pyIsSpace).reverse.dropWhile pyIsSpace).reverse)

/-- ASCII lower-casing of one character (`str.lower`; the sources only
compare against ASCII literals). -/
def charLower (c : Char) : Char :=
  if 65 ≤ c.toNat ∧ c.toNat ≤ 90 then Char.ofNat (c.toNat + 32) else c

/-- Python `s.lower()`. -/
def pyLower (s : String) : String := String.mk (s.toList.map charLower)

/-- Decimal digit test. -/
def isDigitChar (c : Char) : Bool := 48 ≤ c.toNat && c.toNat ≤ 57

/-- A nonempty all-digit char list as a natural number. -/
def digitsToNat (cs : List Char) : Option Nat :=
  if cs ≠ [] ∧ cs.all isDigitChar then
    some (cs.foldl (fun a c => a * 10 + (c.toNat - 48)) 0)
  else none

/-- Python's `int(s)` for a decimal string: optional surrounding
whitespace, optional sign, digits. Returns `none` when `int` raises
`ValueError`. (Numeric-literal underscores are not modelled; no claim
depends on them.) -/
def pyInt (s : String) : Option Int :=
  match (pyStrip s).toList with
  | '-' :: ds => (digitsToNat ds).map (fun n => -(n : Int))
  | '+' :: ds => (digitsToNat ds).map (fun n => (n : Int))
  | ds => (digitsToNat ds).map (fun n => (n : Int))

/-- Python `s.replace(pat, rep)` (all non-overlapping occurrences, left
to right), driven by a fuel argument for structural recursion; `fuel =
s.length` always suffices since each match consumes at least one
character of a nonempty `pat`. -/
def replaceFuel (pat rep : List Char) : Nat → List Char → List Char
  | _, [] => []
  | 0, cs => cs
  | fuel + 1, c :: rest =>
      if pat ≠ [] ∧ listPrefix pat (c :: rest) = true then
        rep ++ replaceFuel pat rep fuel (rest.drop (pat.length - 1))
      else c :: replaceFuel pat rep fuel rest

/-- Python `s.replace(pat, rep)` for nonempty `pat`. -/
def pyReplace (s pat rep : String) : String :=
  String.mk (replaceFuel pat.toList rep.toList s.toList.length s.toList)

/-- Count of maximal whitespace-free runs: `len(s.split())` in Python. -/
def wordCountAux : List Char → Bool → Nat → Nat
  | [], _, n => n
  | c :: rest, inWord, n =>
      if pyIsSpace c then wordCountAux rest false n
      else if inWord then wordCountAux rest true n
      else wordCountAux rest true (n + 1)

/-- `len(text.split())` in Python. -/
def pyWordCount (text : String) : Nat := wordCountAux text.toList false 0

/-! ## Shared configuration constants -/

/-- One megabyte, in bytes (`1024 * 1024` in the Python sources). -/
def MB : Nat := 1024 * 1024

/-- `MAX_FILE_SIZE_MB = 100` from `count_repo_token.py`. -/
def MAX_FILE_SIZE_MB : Nat := 100

/-- `MAX_BATCH_SIZE_MB = 100` from `count_repo_token.py`. -/
def MAX_BATCH_SIZE_MB : Nat := 100

/-- `BATCH_FILE_LIMIT = 250` from `count_repo_token.py`. -/
def BATCH_FILE_LIMIT : Nat := 250

/-- `OUTPUT_DIR = "cloned_repos"` from `clone_github.py`. -/
def OUTPUT_DIR : String := "cloned_repos"

/-- `pandas.DataFrame.head(n)` / Python `l[:n]`: first `n` elements for
`n ≥ 0`, everything but the last `|n|` elements for `n < 0`. -/
def pdHead {α : Type} (l : List α) (n : Int) : List α :=
  if 0 ≤ n then l.take n.toNat else l.take (l.length - (-n).toNat)

/-- `os.path.join(a, b)` for the POSIX separator. -/
def joinPath (a b : String) : String :=
  if sStartsWith b "/" then b
  else if a = "" then b
  else if sEndsWith a "/" then a ++ b
  else a ++ "/" ++ b

/-- `url.rstrip("/").split("/")[-1]` from `clone_repo`. -/
def repo_name_of (url : String) : String :=
  (pathParts (String.mk ((url.toList.reverse.dropWhile (fun ch => ch = '/')).reverse))).getLastD ""

/-- `os.path.splitext(filepath)[1]`: the extension (with its dot) of the
basename, where the leading run of dots of the basename never starts an
extension (`".git"` has extension `""`). -/
def extOf (filepath : String) : String :=
  let base := ((pathParts filepath).getLastD "").toList
  let rest := base.dropWhile (fun ch => ch = '.')
  if rest.contains '.' then
    String.mk ('.' :: (rest.reverse.takeWhile (fun ch => ch ≠ '.')).reverse)
  else ""

/-! ## File filter (`count_repo_token.py`) -/

/-- `EXCLUDE_EXTENSIONS` from `count_repo_token.py`. -/
def EXCLUDE_EXTENSIONS : List String :=
  [".exe", ".dll", ".so", ".dylib", ".bin", ".obj", ".o", ".a", ".lib",
   ".zip", ".tar", ".gz", ".rar", ".7z", ".xz", ".bz2",
   ".pdf", ".doc", ".docx", ".ppt", ".pptx",
   ".pyc", ".pyo", ".class", ".jar",
   ".tmp", ".log", ".bak"]

/-- `INCLUDE_EXTENSIONS` from `count_repo_token.py`. -/
def INCLUDE_EXTENSIONS : List String :=
  [".py", ".ipynb", ".c", ".cpp", ".h", ".hpp", ".java", ".js", ".ts", ".tsx", ".jsx",
   ".html", ".htm", ".css", ".php", ".go", ".rs", ".swift", ".kt", ".m", ".r", ".sh",
   ".sql", ".pl", ".rb", ".lua", ".scala", ".dart", ".json", ".yaml", ".yml", ".toml",
   ".md", ".rst", ".txt", ".ini", ".cfg", ".conf", ".csv"]

/-- `is_valid_file` from `count_repo_token.py`. `mime` is the
`mimetypes.guess_type` collaborator (`none` = `None`; Python treats an
empty string as falsy in the `if mime_type and (...)` guard).
`sizeBytes` is the `os.path.getsize` result for the path. -/
def is_valid_file (mime : String → Option String) (sizeBytes : Nat) (filepath : String) : Bool :=
  let ext := pyLower (extOf filepath)
  if EXCLUDE_EXTENSIONS.contains ext then false
  else if (pathParts filepath).any (fun part => sStartsWith part ".") then false
  else if MAX_FILE_SIZE_MB * MB < sizeBytes then false
  else if INCLUDE_EXTENSIONS.contains ext then true
  else
    match mime filepath with
    | some m =>
        if m ≠ "" ∧ (sStartsWith m "text" = true ∨ strContains m "json" = true
            ∨ strContains m "xml" = true ∨ strContains m "yaml" = true)
        then true else false
    | none => false

/-! ## Clone pipeline (`clone_github.py`) -/

/-- One row of the input manifest (`reportv2.csv`): only the `url` and
`type` columns are consulted by `load_data`. -/
structure ManifestRow where
  url : String
  type : String
deriving DecidableEq

/-- One row of the clone-status ledger (`clone_status.csv`). -/
structure StatusRow where
  url : String
  status : String
  last_updated : String
deriving DecidableEq

/-- A manifest row after the left merge with the status ledger:
`status = none` models pandas `NaN` (no ledger row for the url). -/
structure PendingRow where
  row : ManifestRow
  status : Option String
deriving DecidableEq

/-- The statuses the pandas left merge attaches to a manifest row with
url `url`: one per matching ledger row, or a single `NaN` when the
ledger has no row for `url`. -/
def mergedStatuses (ledger : List StatusRow) (url : String) : List (Option String) :=
  match (ledger.filter (fun r => r.url = url)).map (fun r => some r.status) with
  | [] => [none]
  | l => l

/-- `load_data` from `clone_github.py`: keep the `type == "github"` rows
of the manifest, left-merge the status ledger on `url` (`ledger = none`
models a missing `clone_status.csv`), and drop every row whose merged
status is `"success"` (`df["status"].isna() | (df["status"] != "success")`). -/
def load_data (manifest : List ManifestRow) (ledger : Option (List StatusRow)) :
    List PendingRow :=
  let gh := manifest.filter (fun r => pyLower r.type = "github")
  let merged := match ledger with
    | none => gh.map (fun r => PendingRow.mk r none)
    | some L => gh.flatMap (fun r => (mergedStatuses L r.url).map (fun s => PendingRow.mk r s))
  merged.filter (fun p => p.status ≠ some "success")

/-- `update_status` from `clone_github.py`: drop every ledger row keyed
by `url`, then append the fresh row, and write the whole file back
(`df.to_csv`) before returning. A missing `clone_status.csv` is the
ledger `[]`. The returned list is the persisted file content. -/
def update_status (ledger : List StatusRow) (url status ts : String) : List StatusRow :=
  ledger.filter (fun r => r.url ≠ url) ++ [StatusRow.mk url status ts]

/-- Outcome of the `git clone` subprocess collaborator. -/
inductive GitResult
  | success
  | timeout
  | calledProcessError
  | otherError
deriving DecidableEq

/-- `clone_repo` from `clone_github.py`. `fs` is the set of paths that
exist on disk; `git` is the outcome the `git clone` subprocess would
have if invoked. When the target directory already exists the function
returns `"exists"` without consulting `git`. -/
def clone_repo (fs : List String) (git : GitResult) (url output_dir : String) : String :=
  let repo_path := joinPath output_dir (repo_name_of url)
  if repo_path ∈ fs then "exists"
  else
    match git with
    | GitResult.success => "success"
    | GitResult.timeout => "timeout"
    | GitResult.calledProcessError => "failed"
    | GitResult.otherError => "failed"

/-- One iteration of the batch loop in `main` of `clone_github.py`: the
unit's url is `str(row["url"]).strip()`; a url that does not start with
`https://github.com` is recorded as `invalid`, every other url is
recorded with the status `clone_repo` returned. The returned list is
the persisted ledger (`update_status` writes through). -/
def cloneStep (git : String → GitResult) (fs : List String) (ts : String)
    (L : List StatusRow) (p : PendingRow) : List StatusRow :=
  let url := pyStrip p.row.url
  if sStartsWith url "https://github.com" = false then update_status L url "invalid" ts
  else update_status L url (clone_repo fs (git url) url OUTPUT_DIR) ts

/-- Where the invalid-CLI-argument message of a pipeline goes. Python's
bare `print` writes to standard output; a `logging.StreamHandler()`
writes to standard error. -/
inductive OutStream
  | stdout
  | stderr
deriving DecidableEq

/-- Observable outcome of one `clone_github.py` `main()` invocation. -/
structure CloneRun where
  exitCode : Nat
  invalidMsg : Option OutStream
  ledger : List StatusRow
  processed : List String
deriving DecidableEq

/-- `main` from `clone_github.py`: load the pending rows, return
immediately (exit code 0) when nothing is pending, otherwise select
`head(limit)` for a numeric argument — an unparseable argument prints
the usage message via `print`, i.e. to standard output, and calls
`sys.exit(1)` — then clone each selected row sequentially, persisting
the status ledger after each unit. `ts` stands in for the per-entry
timestamps. -/
def clone_main (git : String → GitResult) (fs : List String) (ts arg : String)
    (manifest : List ManifestRow) (ledger0 : Option (List StatusRow)) : CloneRun :=
  let df := load_data manifest ledger0
  let L0 := ledger0.getD []
  if df.length = 0 then CloneRun.mk 0 none L0 []
  else
    match (if arg = "all" then some df else (pyInt arg).map (pdHead df)) with
    | none => CloneRun.mk 1 (some OutStream.stdout) L0 []
    | some sel =>
        CloneRun.mk 0 none (sel.foldl (cloneStep git fs ts) L0)
          (sel.map (fun p => pyStrip p.row.url))

/-! ## Repo token-count pipeline (`count_repo_token.py`) -/

/-- One file handed to `count_tokens_chunked`: its path, its
`os.path.getsize` result, and its read content (`none` models an
exception raised while reading). -/
structure SrcFile where
  path : String
  sizeBytes : Nat
  content : Option String
deriving DecidableEq

/-- `"\n\n".join(current_batch)`: the batch is stored here as
(content, sizeBytes) pairs so the size invariant can be stated; the
joined text uses the contents only, as in the source. -/
def combineBatch (b : List (String × Nat)) : String :=
  String.intercalate "\n\n" (b.map Prod.fst)

/-- Total size in bytes of a batch. -/
def sumBytes (b : List (String × Nat)) : Nat := (b.map Prod.snd).sum

/-- Size in bytes of the last file appended to a batch. -/
def lastBytes (b : List (String × Nat)) : Nat :=
  ((b.getLast?).map Prod.snd).getD 0

/-- Loop state of `count_tokens_chunked`: running token total, current
batch with its accumulated size, plus (as observable history) the
batches that have been successfully encoded and reset so far. -/
structure ChunkState where
  total : Nat
  cur : List (String × Nat)
  curBytes : Nat
  flushed : List (List (String × Nat))
deriving DecidableEq

/-- One iteration of the `for path in valid_files` loop of
`count_tokens_chunked`. The whole body sits in a `try`: a read failure
(`f.content = none`) leaves the state unchanged; after a successful
read the file is appended, and when the count or size threshold is
reached the batch is joined and encoded — if `tokenizer.encode` raises
(`tok _ = none`), the per-file handler catches it, so the running total
is unchanged and (because the reset statements are skipped) the batch
and its accumulated size are retained. -/
def chunkStep (tok : String → Option (List Nat)) (st : ChunkState) (f : SrcFile) :
    ChunkState :=
  match f.content with
  | none => st
  | some c =>
      if BATCH_FILE_LIMIT ≤ (st.cur ++ [(c, f.sizeBytes)]).length
          ∨ MAX_BATCH_SIZE_MB * MB ≤ st.curBytes + f.sizeBytes then
        match tok (combineBatch (st.cur ++ [(c, f.sizeBytes)])) with
        | none =>
            { st with cur := st.cur ++ [(c, f.sizeBytes)],
                      curBytes := st.curBytes + f.sizeBytes }
        | some toks =>
            ChunkState.mk (st.total + toks.length) [] 0
              (st.flushed ++ [st.cur ++ [(c, f.sizeBytes)]])
      else
        { st with cur := st.cur ++ [(c, f.sizeBytes)],
                  curBytes := st.curBytes + f.sizeBytes }

/-- The `for` loop of `count_tokens_chunked` over all files. -/
def chunkLoop (tok : String → Option (List Nat)) (files : List SrcFile) : ChunkState :=
  files.foldl (chunkStep tok) (ChunkState.mk 0 [] 0 [])

/-- The leftover flush at the end of `count_tokens_chunked`
(`if current_batch: ... tokenizer.encode(...)`). This call is NOT inside
any `try`, so an encoding failure here propagates (`Except.error`). -/
def chunkFinal (tok : String → Option (List Nat)) (st : ChunkState) :
    Except Unit (Nat × List (List (String × Nat))) :=
  if st.cur = [] then Except.ok (st.total, st.flushed)
  else
    match tok (combineBatch st.cur) with
    | none => Except.error ()
    | some toks => Except.ok (st.total + toks.length, st.flushed ++ [st.cur])

/-- `count_tokens_chunked` from `count_repo_token.py`, returning the
token total paired with the list of flushed batches, or `Except.error`
when the uncaught leftover encode raises. -/
def count_tokens_chunked (tok : String → Option (List Nat)) (files : List SrcFile) :
    Except Unit (Nat × List (List (String × Nat))) :=
  chunkFinal tok (chunkLoop tok files)

/-- One row of the repo token-count ledger (`repo_token_count.csv`). -/
structure TokenRow where
  repo_path : String
  number_of_tokens : Nat
  file_count : Nat
deriving DecidableEq

/-- `load_processed_repos` from `count_repo_token.py`: the set of
`repo_path` keys present in the ledger (a missing file is `[]`). -/
def load_processed_repos (ledger : List TokenRow) : List String :=
  ledger.map (fun r => r.repo_path)

/-- `append_to_csv` from `count_repo_token.py`: open in append mode,
write the row, and close (flushing) before returning. The returned list
is the persisted file content. -/
def append_to_csv (ledger : List TokenRow) (repo_path : String) (token_count file_count : Nat) :
    List TokenRow :=
  ledger ++ [TokenRow.mk repo_path token_count file_count]

/-- `pending_repos = [r for r in all_repos if r not in processed]` from
`main` of `count_repo_token.py`. -/
def pending_repos (allRepos : List String) (ledger : List TokenRow) : List String :=
  allRepos.filter (fun r => !((load_processed_repos ledger).contains r))

/-- `process_repo` from `count_repo_token.py`, at the granularity the
batch loop sees: with no valid files, record `(0, 0)`; otherwise run
`count_tokens_chunked` and report the total with the file count. An
`Except.error` models an exception escaping `process_repo` (e.g. the
uncaught leftover-flush encode failure), in which case nothing is
appended to the ledger. -/
def process_repo (tok : String → Option (List Nat)) (valid_files : List SrcFile) :
    Except Unit (Nat × Nat) :=
  if valid_files = [] then Except.ok (0, 0)
  else
    match count_tokens_chunked tok valid_files with
    | Except.error e => Except.error e
    | Except.ok t => Except.ok (t.1, valid_files.length)

/-- One iteration of the `for repo_path in pending_repos` loop of
`main` in `count_repo_token.py`: `try: process_repo(...)` — on success
the ledger row is appended (inside `process_repo`, before returning);
`except Exception: logging.error(...)` only logs, so on failure the
persisted ledger is unchanged and the loop moves on. -/
def countStep (oc : String → Except Unit (Nat × Nat)) (L : List TokenRow) (r : String) :
    List TokenRow :=
  match oc r with
  | Except.ok tf => append_to_csv L r tf.1 tf.2
  | Except.error _ => L

/-- The unit loop of `main` in `count_repo_token.py`. -/
def countRun (oc : String → Except Unit (Nat × Nat)) (L : List TokenRow)
    (rs : List String) : List TokenRow :=
  rs.foldl (countStep oc) L

/-- Observable outcome of one `count_repo_token.py` `main()` invocation. -/
structure CountRun where
  exitCode : Nat
  invalidMsg : Option OutStream
  ledger : List TokenRow
  processed : List String
deriving DecidableEq

/-- `main` from `count_repo_token.py`: compute the pending repos, slice
them for a numeric argument (`"all"` compared case-insensitively; an
unparseable argument is reported via `logging.error` — a stream handler
on standard error — followed by a plain `return`, so the process exit
code is 0), then process each pending repo sequentially. `oc` is the
per-repo outcome of `process_repo`. -/
def count_main (oc : String → Except Unit (Nat × Nat)) (arg : String)
    (allRepos : List String) (ledger0 : List TokenRow) : CountRun :=
  let pending := pending_repos allRepos ledger0
  if pyLower arg = "all" then
    if pending = [] then CountRun.mk 0 none ledger0 []
    else CountRun.mk 0 none (countRun oc ledger0 pending) pending
  else
    match pyInt arg with
    | none => CountRun.mk 0 (some OutStream.stderr) ledger0 []
    | some n =>
        let sel := pdHead pending n
        if sel = [] then CountRun.mk 0 none ledger0 []
        else CountRun.mk 0 none (countRun oc ledger0 sel) sel

/-! ## Document-download pipeline (`Pdfs/pdf_download.py`) -/

/-- One row of the download log (`download_log.csv`); only the `url`
and `status` columns are consulted when resuming. -/
structure DlRow where
  url : String
  status : String
deriving DecidableEq

/-- `load_download_log` from `pdf_download.py`: the loop
`downloaded[row["url"]] = row["status"]` builds a Python dict; the dict
is modelled by its assignment history (one assignment per log row, in
file order). -/
def load_download_log (log : List DlRow) : List (String × String) :=
  log.map (fun r => (r.url, r.status))

/-- Python dict lookup over an assignment history: the most recent
assignment to the key wins; `none` when the key was never assigned
(`url in download_log` is false). -/
def dictGet (d : List (String × String)) (u : String) : Option String :=
  ((d.filter (fun p => p.1 = u)).getLast?).map Prod.snd

/-- What `process_csv` decides for one input row. -/
inductive RowAction
  | noUrl
  | skipDownloaded
  | download
deriving DecidableEq

/-- The per-row decision of `process_csv` in `pdf_download.py`:
`url = row.get("url","").strip()`; an empty url is skipped outright;
otherwise the row is skipped as already downloaded exactly when
`url in download_log and download_log[url] == "success"`. -/
def process_csv_rowAction (dlog : List (String × String)) (rawUrl : String) : RowAction :=
  let url := pyStrip rawUrl
  if url = "" then RowAction.noUrl
  else if dictGet dlog url = some "success" then RowAction.skipDownloaded
  else RowAction.download

/-! ## Per-document stats pipeline (`Pdfs/pdf_text_token.py`) -/

/-- One row of the per-document stats ledger (`pdf_token_count.csv`). -/
structure PdfRow where
  doc_name : String
  doc_size : Nat
  text_file_name : String
  char_count : Nat
  word_count : Nat
  token_count : Nat
  status : String
  error : String
deriving DecidableEq

/-- One PDF unit as seen by `process_pdfs`: its filename and size plus
the outcomes of the external steps (`extract_text_from_pdf`,
`save_text_to_file`, `tokenizer.encode`), each of which catches its own
exceptions and returns a value/error pair in the source. -/
structure PdfDoc where
  filename : String
  size : Nat
  extract : Except String String
  saveOk : Bool
  encode : Except String (List Nat)

/-- The in-memory result row one iteration of the `process_pdfs` loop
appends for a document: a `failed` row when text extraction fails; no
row at all when saving the text file fails (that branch is a bare
`continue`); otherwise a `success` row whose token count falls back to
0 when `tokenizer.encode` failed. -/
def pdfUnitRow (d : PdfDoc) : Option PdfRow :=
  match d.extract with
  | Except.error e => some (PdfRow.mk d.filename d.size "" 0 0 0 "failed" e)
  | Except.ok text =>
      if d.saveOk = false then none
      else
        let tf := pyReplace d.filename ".pdf" ".txt"
        let tokenCount := match d.encode with
          | Except.ok toks => toks.length
          | Except.error _ => 0
        some (PdfRow.mk d.filename d.size tf text.length (pyWordCount text)
          tokenCount "success" "")

/-- The in-memory `results` list after the `process_pdfs` loop has run
over `docs` (the loop only ever appends to a Python list; it performs
no write to `OUTPUT_CSV`). -/
def process_pdfs_results (docs : List PdfDoc) : List PdfRow :=
  docs.foldl
    (fun results d =>
      match pdfUnitRow d with
      | some r => results ++ [r]
      | none => results) []

/-- Persisted contents of `pdf_token_count.csv` observed after `k`
units of a `process_pdfs` run over `docs` have finished. The loop body
never touches the file, so while units remain (`k < docs.length`) the
file still holds its initial contents; the single write — `open(...,
"w")` followed by `writerows(results)` — happens only after the loop,
replacing the file with the accumulated results. -/
def process_pdfs_persisted (initial : List PdfRow) (docs : List PdfDoc) (k : Nat) :
    List PdfRow :=
  if k < docs.length then initial else process_pdfs_results docs

/-! ## Helper lemmas -/

theorem update_status_self_filter (ledger : List StatusRow) (url status ts : String) :
    (update_status ledger url status ts).filter (fun r => r.url = url)
      = [StatusRow.mk url status ts] := by
  unfold update_status
  rw [List.filter_append]
  have h1 : (ledger.filter (fun r => r.url ≠ url)).filter (fun r => r.url = url) = [] := by
    rw [List.filter_filter]
    apply List.filter_eq_nil_iff.mpr
    intro a _
    by_cases h : a.url = url <;> simp [h]
  have h2 : ([StatusRow.mk url status ts].filter (fun r => r.url = url))
      = [StatusRow.mk url status ts] := by
    simp [List.filter_cons]
  rw [h1, h2, List.nil_append]

theorem update_status_other_filter (ledger : List StatusRow) (url status ts u : String)
    (hu : u ≠ url) :
    (update_status ledger url status ts).filter (fun r => r.url = u)
      = ledger.filter (fun r => r.url = u) := by
  unfold update_status
  rw [List.filter_append]
  have h2 : ([StatusRow.mk url status ts].filter (fun r => r.url = u)) = [] := by
    simp [List.filter_cons, hu.symm]
  rw [h2, List.append_nil, List.filter_filter]
  apply List.filter_congr
  intro a _
  by_cases h : a.url = u
  · have hne : a.url ≠ url := fun hco => hu (h ▸ hco ▸ rfl)
    simp [h, hne, hu]
  · simp [h]

theorem update_status_mem (ledger : List StatusRow) (url status ts : String) :
    StatusRow.mk url status ts ∈ update_status ledger url status ts := by
  unfold update_status
  exact List.mem_append_right _ (List.mem_singleton.mpr rfl)

/-! ## Claim theorems -/

/-- C7: clone-status upsert. After `update_status(url, status)` the
clone-status ledger contains exactly one row keyed by `url`, carrying
the new status (and timestamp), while the rows keyed by any other url
`u` are exactly the rows the ledger held for `u` before — last-write-wins
by remove-then-append. -/
theorem update_status_upsert (ledger : List StatusRow) (url status ts u : String)
    (hu : u ≠ url) :
    (update_status ledger url status ts).filter (fun r => r.url = url)
        = [StatusRow.mk url status ts] ∧
    (update_status ledger url status ts).filter (fun r => r.url = u)
        = ledger.filter (fun r => r.url = u) :=
  ⟨update_status_self_filter ledger url status ts,
   update_status_other_filter ledger url status ts u hu⟩

theorem update_status_upsert_witness :
    (update_status [StatusRow.mk "u1" "failed" "t0", StatusRow.mk "u2" "success" "t0"]
        "u1" "success" "t1").filter (fun r => r.url = "u1")
        = [StatusRow.mk "u1" "success" "t1"] ∧
    (update_status [StatusRow.mk "u1" "failed" "t0", StatusRow.mk "u2" "success" "t0"]
        "u1" "success" "t1").filter (fun r => r.url = "u2")
        = [StatusRow.mk "u2" "success" "t0"] := by
  have h := update_status_upsert
    [StatusRow.mk "u1" "failed" "t0", StatusRow.mk "u2" "success" "t0"]
    "u1" "success" "t1" "u2" (by decide)
  exact ⟨h.1, h.2.trans (by decide)⟩

/-- C8: file-filter precedence. `is_valid_file` rejects a path whose
extension is in the deny set, or with a dot-prefixed path segment, or
whose size exceeds the 100 MB ceiling, whatever the MIME collaborator
answers — these checks come before the allow set is consulted, so an
oversized `.py` is rejected; and in the scenario directory, of
`repo/a.py` (5 KB), `repo/b.bin` (50 MB) and `repo/.git/config`, only
`a.py` is eligible, again for every MIME collaborator. -/
theorem is_valid_file_precedence (mime : String → Option String) (p : String) (size : Nat)
    (h : EXCLUDE_EXTENSIONS.contains (pyLower (extOf p)) = true
       ∨ (pathParts p).any (fun part => sStartsWith part ".") = true
       ∨ MAX_FILE_SIZE_MB * MB < size) :
    is_valid_file mime size p = false ∧
    (∀ m2 : String → Option String,
      is_valid_file m2 5120 "repo/a.py" = true ∧
      is_valid_file m2 (50 * MB) "repo/b.bin" = false ∧
      is_valid_file m2 300 "repo/.git/config" = false ∧
      is_valid_file m2 (101 * MB) "repo/huge.py" = false) := by
  constructor
  · simp only [is_valid_file]
    split_ifs with h1 h2 h3 h4
    · rfl
    · rfl
    · rfl
    · rcases h with h | h | h
      · exact absurd h h1
      · exact absurd h h2
      · exact absurd h h3
    · rcases h with h | h | h
      · exact absurd h h1
      · exact absurd h h2
      · exact absurd h h3
  · intro m2
    exact ⟨rfl, rfl, rfl, rfl⟩

theorem is_valid_file_precedence_witness :
    is_valid_file (fun _ => none) 10 "repo/x.exe" = false ∧
    is_valid_file (fun _ => some "text/x-python") (101 * MB) "repo/huge.py" = false :=
  ⟨(is_valid_file_precedence (fun _ => none) "repo/x.exe" 10 (Or.inl (by decide))).1,
   (is_valid_file_precedence (fun _ => some "text/x-python") "repo/huge.py" (101 * MB)
      (Or.inr (Or.inr (by decide)))).1⟩

theorem dictGet_load_download_log (log : List DlRow) (u : String) :
    dictGet (load_download_log log) u
      = ((log.filter (fun r => r.url = u)).getLast?).map (fun r => r.status) := by
  unfold dictGet load_download_log
  rw [List.filter_map]
  have hp : ((fun p : String × String => decide (p.1 = u)) ∘ (fun r : DlRow => (r.url, r.status)))
      = (fun r : DlRow => decide (r.url = u)) := rfl
  rw [hp, List.getLast?_map, Option.map_map]
  rfl

/-- C6 counterexample: the download log holds a prior `success` entry
for the url, followed by a later `failed` entry; the claim says the row
is then skipped, but `process_csv` chooses to download it — the dict
built by `load_download_log` keeps only the most recent status. -/
theorem download_skip_counterexample :
    DlRow.mk "http://x/a.pdf" "success" ∈
        [DlRow.mk "http://x/a.pdf" "success", DlRow.mk "http://x/a.pdf" "failed"] ∧
    process_csv_rowAction
        (load_download_log
          [DlRow.mk "http://x/a.pdf" "success", DlRow.mk "http://x/a.pdf" "failed"])
        "http://x/a.pdf" = RowAction.download :=
  ⟨by decide, by decide⟩

/-- C6 (amended): the download pipeline skips a manifest row as already
downloaded exactly when the MOST RECENT download-log entry for the
row's stripped (nonempty) URL has status `success` — duplicates are
resolved last-write-wins by the dict `load_download_log` builds, not by
scanning for any prior success. -/
theorem download_skip_last_wins (log : List DlRow) (rawUrl : String)
    (h : pyStrip rawUrl ≠ "") :
    process_csv_rowAction (load_download_log log) rawUrl = RowAction.skipDownloaded ↔
      ((log.filter (fun r => r.url = pyStrip rawUrl)).getLast?).map (fun r => r.status)
        = some "success" := by
  simp only [process_csv_rowAction]
  rw [if_neg h, dictGet_load_download_log]
  by_cases hd : ((log.filter (fun r => r.url = pyStrip rawUrl)).getLast?).map
      (fun r => r.status) = some "success"
  · simp [hd]
  · simp [hd]

theorem download_skip_last_wins_witness :
    process_csv_rowAction
        (load_download_log [DlRow.mk "u" "failed", DlRow.mk "u" "success"]) "u"
        = RowAction.skipDownloaded :=
  (download_skip_last_wins [DlRow.mk "u" "failed", DlRow.mk "u" "success"] "u"
    (by decide)).mpr (by decide)

/-- C9 counterexample: on the argument `"abc"` (neither an integer nor
`"all"`), the token-count entry point terminates with exit code 0 (not
a non-zero code), and the clone entry point (with one pending unit)
prints its usage message on standard output (not standard error) —
refuting the claim that both emit the message to standard error and
exit non-zero. -/
theorem cli_invalid_arg_counterexample :
    (count_main (fun _ => Except.ok (0, 0)) "abc" ["cloned_repos/r1"] []).exitCode = 0 ∧
    (count_main (fun _ => Except.ok (0, 0)) "abc" ["cloned_repos/r1"] []).processed = [] ∧
    (clone_main (fun _ => GitResult.success) [] "t0" "abc"
        [ManifestRow.mk "https://github.com/x/r" "github"] none).invalidMsg
      = some OutStream.stdout ∧
    OutStream.stdout ≠ OutStream.stderr :=
  ⟨by decide, by decide, by decide, by decide⟩

/-- C9 (amended): for a command-line argument that is neither a
parseable integer nor `"all"`, neither entry point processes any unit,
but their reporting differs from the claim: the clone pipeline (when
its pending set is non-empty) prints the usage message to standard
output and exits with code 1, while the token-count pipeline logs the
error to standard error and returns normally, exiting with code 0. -/
theorem cli_invalid_arg_behavior (arg : String)
    (hall : arg ≠ "all") (hlow : pyLower arg ≠ "all") (hparse : pyInt arg = none)
    (git : String → GitResult) (fs : List String) (ts : String)
    (manifest : List ManifestRow) (ledger0 : Option (List StatusRow))
    (hpend : (load_data manifest ledger0).length ≠ 0)
    (oc : String → Except Unit (Nat × Nat)) (allRepos : List String) (TL : List TokenRow) :
    clone_main git fs ts arg manifest ledger0
      = CloneRun.mk 1 (some OutStream.stdout) (ledger0.getD []) [] ∧
    count_main oc arg allRepos TL
      = CountRun.mk 0 (some OutStream.stderr) TL [] := by
  constructor
  · simp only [clone_main]
    rw [if_neg hpend, if_neg hall, hparse]
    rfl
  · simp only [count_main]
    rw [if_neg hlow, hparse]

theorem cli_invalid_arg_behavior_witness :
    clone_main (fun _ => GitResult.success) [] "t0" "abc"
        [ManifestRow.mk "https://github.com/x/r" "github"] none
      = CloneRun.mk 1 (some OutStream.stdout) [] [] ∧
    count_main (fun _ => Except.ok (0, 0)) "abc" ["cloned_repos/r1"] []
      = CountRun.mk 0 (some OutStream.stderr) [] [] :=
  cli_invalid_arg_behavior "abc" (by decide) (by decide) (by decide)
    (fun _ => GitResult.success) [] "t0"
    [ManifestRow.mk "https://github.com/x/r" "github"] none (by decide)
    (fun _ => Except.ok (0, 0)) ["cloned_repos/r1"] []

/-- C2 counterexample: a pdf run over two documents that both succeed;
after unit 1 finishes and before unit 2 starts, the persisted
per-document stats ledger still holds its initial (here: empty)
contents even though unit 1 produced a result row — `process_pdfs`
buffers every row in memory and writes the file once, after all
units. -/
theorem ledger_durability_counterexample :
    process_pdfs_persisted []
        [PdfDoc.mk "a.pdf" 10 (Except.ok "hello") true (Except.ok [1, 2]),
         PdfDoc.mk "b.pdf" 20 (Except.ok "bye") true (Except.ok [3])] 1 = [] ∧
    process_pdfs_results [PdfDoc.mk "a.pdf" 10 (Except.ok "hello") true (Except.ok [1, 2])]
      = [PdfRow.mk "a.pdf" 10 "a.txt" 5 1 2 "success" ""] :=
  ⟨by decide, by decide⟩

/-- C2 (amended): durability holds for the clone-status ledger (each
unit's `update_status` returns the persisted file already containing
that unit's entry) and for the repo token-count ledger (a successful
unit's `append_to_csv` persists its row before the loop moves on), but
NOT for the per-document stats ledger: during the `process_pdfs` loop
the persisted file keeps its initial contents, and the single write
happens only after all units. -/
theorem ledger_durability (git : String → GitResult) (fs : List String) (ts : String)
    (L : List StatusRow) (p : PendingRow)
    (oc : String → Except Unit (Nat × Nat)) (TL : List TokenRow) (r : String)
    (t f : Nat) (hoc : oc r = Except.ok (t, f))
    (initial : List PdfRow) (docs : List PdfDoc) (k : Nat) (hk : k < docs.length) :
    (∃ s, StatusRow.mk (pyStrip p.row.url) s ts ∈ cloneStep git fs ts L p) ∧
    countStep oc TL r = TL ++ [TokenRow.mk r t f] ∧
    process_pdfs_persisted initial docs k = initial := by
  refine ⟨?_, ?_, ?_⟩
  · simp only [cloneStep]
    by_cases hs : sStartsWith (pyStrip p.row.url) "https://github.com" = false
    · rw [if_pos hs]
      exact ⟨"invalid", update_status_mem L (pyStrip p.row.url) "invalid" ts⟩
    · rw [if_neg hs]
      exact ⟨_, update_status_mem L (pyStrip p.row.url) _ ts⟩
  · simp only [countStep]
    rw [hoc]
    rfl
  · simp only [process_pdfs_persisted]
    rw [if_pos hk]

theorem ledger_durability_witness :
    countStep (fun _ => Except.ok (3, 2)) [] "cloned_repos/r1"
      = [] ++ [TokenRow.mk "cloned_repos/r1" 3 2] ∧
    process_pdfs_persisted [] [PdfDoc.mk "a.pdf" 10 (Except.ok "hi") true (Except.ok [1])] 0
      = [] := by
  have h := ledger_durability (fun _ => GitResult.success) [] "t0" []
    (PendingRow.mk (ManifestRow.mk "https://github.com/x/r" "github") none)
    (fun _ => Except.ok (3, 2)) [] "cloned_repos/r1" 3 2 rfl
    [] [PdfDoc.mk "a.pdf" 10 (Except.ok "hi") true (Except.ok [1])] 0 (by decide)
  exact ⟨h.2.1, h.2.2⟩

/-- C4 counterexample: a token-count run over two repos where the first
raises: the loop continues and completes the second repo, but the
ledger afterwards holds NO entry for the failed repo (the output schema
has no status column at all, so no `status=failed` entry exists) —
refuting "always leaves a ledger entry". -/
theorem unit_failure_counterexample :
    count_main (fun r => if r = "cloned_repos/r1" then Except.error () else Except.ok (5, 1))
        "all" ["cloned_repos/r1", "cloned_repos/r2"] []
      = CountRun.mk 0 none [TokenRow.mk "cloned_repos/r2" 5 1]
          ["cloned_repos/r1", "cloned_repos/r2"] ∧
    "cloned_repos/r1" ∉ load_processed_repos [TokenRow.mk "cloned_repos/r2" 5 1] :=
  ⟨by decide, by decide⟩

/-- C4 (amended): a single unit's failure is never fatal to the batch,
but the two pipelines differ from the claim in how it is recorded: the
token-count loop catches the exception, logs it, continues with the
remaining units and records NOTHING for the failed unit (its ledger
evolves exactly as if the unit were absent, so the unit stays pending
for future runs); in the clone pipeline the exception is caught inside
`clone_repo`, which returns `"failed"`, and `update_status` persists a
`status=failed` entry for the unit before the next unit starts. -/
theorem unit_failure_containment (oc : String → Except Unit (Nat × Nat))
    (L : List TokenRow) (r : String) (rest : List String) (hfail : oc r = Except.error ())
    (git : String → GitResult) (fs : List String) (ts : String)
    (CL : List StatusRow) (p : PendingRow)
    (hurl : sStartsWith (pyStrip p.row.url) "https://github.com" = true)
    (hgit : git (pyStrip p.row.url) = GitResult.otherError)
    (hfs : joinPath OUTPUT_DIR (repo_name_of (pyStrip p.row.url)) ∉ fs) :
    countRun oc L (r :: rest) = countRun oc L rest ∧
    StatusRow.mk (pyStrip p.row.url) "failed" ts ∈ cloneStep git fs ts CL p := by
  constructor
  · simp only [countRun, List.foldl_cons]
    have hstep : countStep oc L r = L := by
      simp only [countStep]
      rw [hfail]
    rw [hstep]
  · simp only [cloneStep]
    rw [if_neg (by rw [hurl]; exact fun hco => Bool.noConfusion hco)]
    have hcr : clone_repo fs (git (pyStrip p.row.url)) (pyStrip p.row.url) OUTPUT_DIR
        = "failed" := by
      simp only [clone_repo]
      rw [hgit, if_neg hfs]
    rw [hcr]
    exact update_status_mem CL (pyStrip p.row.url) "failed" ts

theorem unit_failure_containment_witness :
    countRun (fun r => if r = "cloned_repos/r1" then Except.error () else Except.ok (5, 1)) []
        ("cloned_repos/r1" :: ["cloned_repos/r2"])
      = countRun (fun r => if r = "cloned_repos/r1" then Except.error () else Except.ok (5, 1))
          [] ["cloned_repos/r2"] ∧
    StatusRow.mk "https://github.com/x/r" "failed" "t0" ∈
      cloneStep (fun _ => GitResult.otherError) [] "t0" []
        (PendingRow.mk (ManifestRow.mk "https://github.com/x/r" "github") none) :=
  unit_failure_containment
    (fun r => if r = "cloned_repos/r1" then Except.error () else Except.ok (5, 1))
    [] "cloned_repos/r1" ["cloned_repos/r2"] rfl
    (fun _ => GitResult.otherError) [] "t0" []
    (PendingRow.mk (ManifestRow.mk "https://github.com/x/r" "github") none)
    (by decide) rfl (by decide)

theorem filter_url_eq_singleton (L : List StatusRow) (x : StatusRow)
    (hnd : (L.map (fun r => r.url)).Nodup) (hx : x ∈ L) :
    L.filter (fun r => r.url = x.url) = [x] := by
  induction L with
  | nil => cases hx
  | cons h t ih =>
    rw [List.map_cons, List.nodup_cons] at hnd
    rcases List.mem_cons.mp hx with hxe | hx2
    · subst hxe
      rw [List.filter_cons, if_pos (by simp)]
      have hnil : t.filter (fun r => r.url = x.url) = [] := by
        apply List.filter_eq_nil_iff.mpr
        intro a ha
        simp only [decide_eq_true_eq]
        intro hurl
        exact hnd.1 (hurl ▸ List.mem_map_of_mem (fun r => r.url) ha)
      rw [hnil]
    · have hne : ¬ (h.url = x.url) := by
        intro he
        exact hnd.1 (he ▸ List.mem_map_of_mem (fun r => r.url) hx2)
      rw [List.filter_cons, if_neg (by simpa using hne)]
      exact ih hnd.2 hx2

theorem mergedStatuses_of_nodup (L : List StatusRow) (x : StatusRow)
    (hnd : (L.map (fun r => r.url)).Nodup) (hx : x ∈ L) :
    mergedStatuses L x.url = [some x.status] := by
  unfold mergedStatuses
  rw [filter_url_eq_singleton L x hnd hx]
  rfl

/-- C1: resume correctness. If the clone-status ledger (with its
invariant of one row per url, maintained by `update_status`) holds a
`success` row for a url, `load_data` excludes every manifest row with
that url from the pending set, so the unit is never reprocessed; and if
the repo token-count ledger holds a row keyed by a `repo_path`, that
path is excluded from `pending_repos` and hence from any `head(n)`
slice of it that a run processes. -/
theorem resume_correctness (manifest : List ManifestRow) (L : List StatusRow)
    (x : StatusRow) (hnd : (L.map (fun r => r.url)).Nodup) (hx : x ∈ L)
    (hsucc : x.status = "success")
    (allRepos : List String) (TL : List TokenRow) (rp : String) (n : Int)
    (hproc : rp ∈ load_processed_repos TL) :
    (∀ p ∈ load_data manifest (some L), p.row.url ≠ x.url) ∧
    rp ∉ pending_repos allRepos TL ∧
    rp ∉ pdHead (pending_repos allRepos TL) n := by
  have hpend : rp ∉ pending_repos allRepos TL := by
    intro hmem
    unfold pending_repos at hmem
    have h2 := (List.mem_filter.mp hmem).2
    rw [Bool.not_eq_eq_eq_not, Bool.not_true] at h2
    have h4 : (load_processed_repos TL).contains rp = true :=
      List.elem_eq_true_of_mem hproc
    rw [h4] at h2
    exact Bool.noConfusion h2
  refine ⟨?_, hpend, ?_⟩
  · intro p hp hurl
    unfold load_data at hp
    have hp2 := (List.mem_filter.mp hp).2
    have hp1 := (List.mem_filter.mp hp).1
    rcases List.mem_flatMap.mp hp1 with ⟨r, _, hpr⟩
    rcases List.mem_map.mp hpr with ⟨s, hsmem, hps⟩
    have hrow : p.row = r := by rw [← hps]
    have hstat : p.status = s := by rw [← hps]
    rw [hrow] at hurl
    rw [hurl] at hsmem
    rw [mergedStatuses_of_nodup L x hnd hx] at hsmem
    rcases List.mem_singleton.mp hsmem with rfl
    rw [hstat, hsucc] at hp2
    simp at hp2
  · intro hmem
    unfold pdHead at hmem
    split at hmem <;> exact hpend (List.take_subset _ _ hmem)

theorem resume_correctness_witness :
    "cloned_repos/r1" ∉
      pending_repos ["cloned_repos/r1", "cloned_repos/r2"]
        [TokenRow.mk "cloned_repos/r1" 5 1] ∧
    "cloned_repos/r1" ∉
      pdHead (pending_repos ["cloned_repos/r1", "cloned_repos/r2"]
        [TokenRow.mk "cloned_repos/r1" 5 1]) 1 := by
  have h := resume_correctness [ManifestRow.mk "u1" "github"]
    [StatusRow.mk "u1" "success" "t"] (StatusRow.mk "u1" "success" "t")
    (by decide) (by decide) rfl
    ["cloned_repos/r1", "cloned_repos/r2"] [TokenRow.mk "cloned_repos/r1" 5 1]
    "cloned_repos/r1" 1 (by decide)
  exact ⟨h.2.1, h.2.2⟩

/-- C10: when the repository's target directory already exists,
`clone_repo` returns `"exists"` without invoking git (its result is
independent of the git collaborator's outcome), the batch loop then
records `status=exists` for that url via `update_status`; and because
`load_data` drops only rows whose merged status is `"success"`, a unit
whose current ledger status is any non-success value (`exists`,
`timeout`, `failed`, `invalid`) stays in the pending set of every
subsequent run and is re-attempted. -/
theorem exists_status_retry (fs : List String) (g g2 : GitResult) (url output_dir : String)
    (hfs : joinPath output_dir (repo_name_of url) ∈ fs)
    (git : String → GitResult) (ts : String) (CL : List StatusRow) (p : PendingRow)
    (hstart : sStartsWith (pyStrip p.row.url) "https://github.com" = true)
    (hfs2 : joinPath OUTPUT_DIR (repo_name_of (pyStrip p.row.url)) ∈ fs)
    (manifest : List ManifestRow) (L : List StatusRow) (row : ManifestRow) (x : StatusRow)
    (hrow : row ∈ manifest) (htype : pyLower row.type = "github")
    (hnd : (L.map (fun r => r.url)).Nodup) (hx : x ∈ L) (hxurl : x.url = row.url)
    (hs : x.status ≠ "success") :
    clone_repo fs g url output_dir = "exists" ∧
    clone_repo fs g url output_dir = clone_repo fs g2 url output_dir ∧
    StatusRow.mk (pyStrip p.row.url) "exists" ts ∈ cloneStep git fs ts CL p ∧
    PendingRow.mk row (some x.status) ∈ load_data manifest (some L) := by
  have hexists : ∀ g3 : GitResult, clone_repo fs g3 url output_dir = "exists" := by
    intro g3
    simp only [clone_repo]
    rw [if_pos hfs]
  refine ⟨hexists g, (hexists g).trans (hexists g2).symm, ?_, ?_⟩
  · simp only [cloneStep]
    rw [if_neg (by rw [hstart]; exact fun hco => Bool.noConfusion hco)]
    have hcr : clone_repo fs (git (pyStrip p.row.url)) (pyStrip p.row.url) OUTPUT_DIR
        = "exists" := by
      simp only [clone_repo]
      rw [if_pos hfs2]
    rw [hcr]
    exact update_status_mem CL (pyStrip p.row.url) "exists" ts
  · unfold load_data
    apply List.mem_filter.mpr
    constructor
    · apply List.mem_flatMap.mpr
      refine ⟨row, ?_, ?_⟩
      · apply List.mem_filter.mpr
        exact ⟨hrow, by simp [htype]⟩
      · rw [← hxurl, mergedStatuses_of_nodup L x hnd hx]
        exact List.mem_singleton.mpr rfl
    · simpa using hs

theorem exists_status_retry_witness :
    clone_repo ["cloned_repos/myrepo"] GitResult.otherError
        "https://github.com/x/myrepo" OUTPUT_DIR = "exists" ∧
    StatusRow.mk "https://github.com/x/myrepo" "exists" "t0" ∈
      cloneStep (fun _ => GitResult.success) ["cloned_repos/myrepo"] "t0" []
        (PendingRow.mk (ManifestRow.mk "https://github.com/x/myrepo" "github") none) ∧
    PendingRow.mk (ManifestRow.mk "https://github.com/x/myrepo" "github") (some "exists") ∈
      load_data [ManifestRow.mk "https://github.com/x/myrepo" "github"]
        (some [StatusRow.mk "https://github.com/x/myrepo" "exists" "t0"]) := by
  have h := exists_status_retry ["cloned_repos/myrepo"] GitResult.otherError
    GitResult.success "https://github.com/x/myrepo" OUTPUT_DIR (by decide)
    (fun _ => GitResult.success) "t0" []
    (PendingRow.mk (ManifestRow.mk "https://github.com/x/myrepo" "github") none)
    (by decide) (by decide)
    [ManifestRow.mk "https://github.com/x/myrepo" "github"]
    [StatusRow.mk "https://github.com/x/myrepo" "exists" "t0"]
    (ManifestRow.mk "https://github.com/x/myrepo" "github")
    (StatusRow.mk "https://github.com/x/myrepo" "exists" "t0")
    (by decide) (by decide) (by decide) (by decide) (by decide) (by decide)
  exact ⟨h.1, h.2.2.1, h.2.2.2⟩

/-- C5 counterexample: with a tokenizer that always raises and a single
small file, the non-empty final leftover flush's encode call — which
sits outside any `try` — propagates: `count_tokens_chunked` raises
instead of returning a total, and the unit aborts (`process_repo`
raises too), refuting "a tokenizer failure on every batch, including
the final leftover batch, is caught and the unit still completes". -/
theorem tokenizer_failure_counterexample :
    count_tokens_chunked (fun _ => none) [SrcFile.mk "f" 5 (some "x")] = Except.error () ∧
    process_repo (fun _ => none) [SrcFile.mk "f" 5 (some "x")] = Except.error () :=
  ⟨rfl, rfl⟩

/-- C5 (amended): a tokenizer failure while encoding a
threshold-triggered (mid-loop) flush is caught by the per-file handler:
it contributes 0 tokens (the running total is unchanged), does not
abort the unit, and leaves the batch retained (with its accumulated
size) for a later retry; but a tokenizer failure on the non-empty final
leftover flush is not caught inside `count_tokens_chunked` — it
propagates and aborts the unit. -/
theorem tokenizer_failure_containment (tok : String → Option (List Nat))
    (st : ChunkState) (f : SrcFile) (c : String) (hc : f.content = some c)
    (htrig : BATCH_FILE_LIMIT ≤ (st.cur ++ [(c, f.sizeBytes)]).length
      ∨ MAX_BATCH_SIZE_MB * MB ≤ st.curBytes + f.sizeBytes)
    (hfail : tok (combineBatch (st.cur ++ [(c, f.sizeBytes)])) = none)
    (st2 : ChunkState) (hne : st2.cur ≠ [])
    (hfail2 : tok (combineBatch st2.cur) = none) :
    chunkStep tok st f
      = { st with cur := st.cur ++ [(c, f.sizeBytes)],
                  curBytes := st.curBytes + f.sizeBytes } ∧
    (chunkStep tok st f).total = st.total ∧
    chunkFinal tok st2 = Except.error () := by
  obtain ⟨path, sz, co⟩ := f
  cases hc
  have hstep : chunkStep tok st (SrcFile.mk path sz (some c))
      = { st with cur := st.cur ++ [(c, sz)], curBytes := st.curBytes + sz } := by
    simp only [chunkStep]
    rw [if_pos htrig, hfail]
  refine ⟨hstep, by rw [hstep], ?_⟩
  simp only [chunkFinal]
  rw [if_neg hne, hfail2]

theorem tokenizer_failure_containment_witness :
    chunkStep (fun _ => none) (ChunkState.mk 0 [] 0 []) (SrcFile.mk "f1" (100 * MB) (some "a"))
      = ChunkState.mk 0 [("a", 100 * MB)] (100 * MB) [] ∧
    (chunkStep (fun _ => none) (ChunkState.mk 0 [] 0 [])
        (SrcFile.mk "f1" (100 * MB) (some "a"))).total = 0 ∧
    chunkFinal (fun _ => none) (ChunkState.mk 0 [("x", 5)] 5 []) = Except.error () :=
  tokenizer_failure_containment (fun _ => none) (ChunkState.mk 0 [] 0 [])
    (SrcFile.mk "f1" (100 * MB) (some "a")) "a" rfl
    (Or.inr (by decide)) rfl (ChunkState.mk 0 [("x", 5)] 5 []) (by decide) rfl

/-! ## Batch-bound invariant machinery (C3) -/

theorem sumBytes_append (l : List (String × Nat)) (x : String × Nat) :
    sumBytes (l ++ [x]) = sumBytes l + x.2 := by
  simp [sumBytes]

theorem lastBytes_append (l : List (String × Nat)) (x : String × Nat) :
    lastBytes (l ++ [x]) = x.2 := by
  unfold lastBytes
  rw [List.getLast?_concat]
  rfl

/-- A batch in the shape every successfully flushed batch has when no
mid-loop encode fails: non-empty, within the file-count limit, and
within the size limit up to the last appended file. -/
def GoodBatch (b : List (String × Nat)) : Prop :=
  b ≠ [] ∧ b.length ≤ BATCH_FILE_LIMIT ∧
  sumBytes b ≤ MAX_BATCH_SIZE_MB * MB + lastBytes b

/-- Loop invariant of `count_tokens_chunked` under a total tokenizer:
the size accumulator tracks the current batch, the current batch is
strictly below both thresholds, and every flushed batch is good. -/
def ChunkInv (st : ChunkState) : Prop :=
  st.curBytes = sumBytes st.cur ∧ st.cur.length < BATCH_FILE_LIMIT ∧
  st.curBytes < MAX_BATCH_SIZE_MB * MB ∧ ∀ b ∈ st.flushed, GoodBatch b

theorem chunkStep_inv (tok : String → Option (List Nat))
    (htok : ∀ s, (tok s).isSome = true) (st : ChunkState) (f : SrcFile)
    (h : ChunkInv st) : ChunkInv (chunkStep tok st f) := by
  obtain ⟨htot, hlen, hbytes, hfl⟩ := h
  obtain ⟨path, sz, co⟩ := f
  cases co with
  | none => exact ⟨htot, hlen, hbytes, hfl⟩
  | some c =>
    simp only [chunkStep]
    by_cases htrig : BATCH_FILE_LIMIT ≤ (st.cur ++ [(c, sz)]).length
        ∨ MAX_BATCH_SIZE_MB * MB ≤ st.curBytes + sz
    · rw [if_pos htrig]
      cases hto : tok (combineBatch (st.cur ++ [(c, sz)])) with
      | none =>
          exfalso
          have hsome := htok (combineBatch (st.cur ++ [(c, sz)]))
          rw [hto] at hsome
          exact Bool.noConfusion hsome
      | some toks =>
          refine ⟨rfl, ?_, ?_, ?_⟩
          · show ([] : List (String × Nat)).length < BATCH_FILE_LIMIT
            decide
          · show (0 : Nat) < MAX_BATCH_SIZE_MB * MB
            decide
          intro b hb
          rcases List.mem_append.mp hb with hb | hb
          · exact hfl b hb
          · rcases List.mem_singleton.mp hb with rfl
            refine ⟨by simp, ?_, ?_⟩
            · rw [List.length_append, List.length_singleton]
              omega
            · rw [sumBytes_append, lastBytes_append, ← htot]
              omega
    · rw [if_neg htrig]
      push_neg at htrig
      obtain ⟨ht1, ht2⟩ := htrig
      refine ⟨?_, ht1, ht2, hfl⟩
      rw [sumBytes_append, ← htot]

theorem chunkLoop_inv (tok : String → Option (List Nat))
    (htok : ∀ s, (tok s).isSome = true) (files : List SrcFile) (st : ChunkState)
    (h : ChunkInv st) : ChunkInv (files.foldl (chunkStep tok) st) := by
  induction files generalizing st with
  | nil => exact h
  | cons f rest ih =>
      simp only [List.foldl_cons]
      exact ih (chunkStep tok st f) (chunkStep_inv tok htok st f h)

/-- C3 counterexample: three 100 MB files with a tokenizer that raises
on the first two threshold-triggered flush attempts and succeeds on the
third. Because a failed encode skips the reset statements, the batch
keeps growing, and the single batch actually flushed holds 300 MB —
exceeding MAX_BATCH_SIZE_MB plus the size of its last appended file
(100 MB + 100 MB = 200 MB), refuting the claimed bound for every
flushed batch. -/
theorem batch_bounds_counterexample :
    count_tokens_chunked (fun s => if 7 ≤ s.length then some [] else none)
        [SrcFile.mk "f1" (100 * MB) (some "a"), SrcFile.mk "f2" (100 * MB) (some "b"),
         SrcFile.mk "f3" (100 * MB) (some "c")]
      = Except.ok (0, [[("a", 100 * MB), ("b", 100 * MB), ("c", 100 * MB)]]) ∧
    sumBytes [("a", 100 * MB), ("b", 100 * MB), ("c", 100 * MB)] = 300 * MB ∧
    lastBytes [("a", 100 * MB), ("b", 100 * MB), ("c", 100 * MB)] = 100 * MB ∧
    ¬ (300 * MB ≤ MAX_BATCH_SIZE_MB * MB + 100 * MB) :=
  ⟨rfl, by decide, by decide, by decide⟩

/-- C3 (amended): provided the tokenizer succeeds on every encode (so
no failed flush attempt can postpone a reset), `count_tokens_chunked`
completes and every flushed batch — including the final leftover — is
non-empty, has `file_count ≤ BATCH_FILE_LIMIT`, and has cumulative size
at most `MAX_BATCH_SIZE_MB` plus the size of its last appended file
(the size check runs after appending); after the input is exhausted a
non-empty remainder is flushed while an empty remainder is skipped. -/
theorem batch_bounds (tok : String → Option (List Nat))
    (htok : ∀ s, (tok s).isSome = true) (files : List SrcFile) :
    ∃ total flushes, count_tokens_chunked tok files = Except.ok (total, flushes) ∧
      (∀ b ∈ flushes, b ≠ [] ∧ b.length ≤ BATCH_FILE_LIMIT ∧
        sumBytes b ≤ MAX_BATCH_SIZE_MB * MB + lastBytes b) ∧
      ((chunkLoop tok files).cur = [] → flushes = (chunkLoop tok files).flushed) ∧
      ((chunkLoop tok files).cur ≠ [] →
        flushes = (chunkLoop tok files).flushed ++ [(chunkLoop tok files).cur]) := by
  have hinv : ChunkInv (chunkLoop tok files) :=
    chunkLoop_inv tok htok files (ChunkState.mk 0 [] 0 [])
      ⟨rfl, by decide, by decide, fun b hb => absurd hb (List.not_mem_nil b)⟩
  obtain ⟨htot, hlen, hbytes, hfl⟩ := hinv
  unfold count_tokens_chunked chunkFinal
  by_cases hcur : (chunkLoop tok files).cur = []
  · rw [if_pos hcur]
    exact ⟨(chunkLoop tok files).total, (chunkLoop tok files).flushed, rfl,
      fun b hb => hfl b hb, fun _ => rfl, fun hne => absurd hcur hne⟩
  · rw [if_neg hcur]
    cases hto : tok (combineBatch (chunkLoop tok files).cur) with
    | none =>
        exfalso
        have hsome := htok (combineBatch (chunkLoop tok files).cur)
        rw [hto] at hsome
        exact Bool.noConfusion hsome
    | some toks =>
        refine ⟨(chunkLoop tok files).total + toks.length,
          (chunkLoop tok files).flushed ++ [(chunkLoop tok files).cur], rfl, ?_, ?_, ?_⟩
        · intro b hb
          rcases List.mem_append.mp hb with hb | hb
          · exact hfl b hb
          · rcases List.mem_singleton.mp hb with rfl
            refine ⟨hcur, le_of_lt hlen, ?_⟩
            rw [← htot]
            omega
        · intro h0
          exact absurd h0 hcur
        · intro _
          rfl

theorem batch_bounds_witness :
    ∃ total flushes,
      count_tokens_chunked (fun _ => some [1]) [SrcFile.mk "f" 5 (some "x")]
        = Except.ok (total, flushes) ∧
      (∀ b ∈ flushes, b ≠ [] ∧ b.length ≤ BATCH_FILE_LIMIT ∧
        sumBytes b ≤ MAX_BATCH_SIZE_MB * MB + lastBytes b) ∧
      ((chunkLoop (fun _ => some [1]) [SrcFile.mk "f" 5 (some "x")]).cur = [] →
        flushes = (chunkLoop (fun _ => some [1]) [SrcFile.mk "f" 5 (some "x")]).flushed) ∧
      ((chunkLoop (fun _ => some [1]) [SrcFile.mk "f" 5 (some "x")]).cur ≠ [] →
        flushes = (chunkLoop (fun _ => some [1]) [SrcFile.mk "f" 5 (some "x")]).flushed
          ++ [(chunkLoop (fun _ => some [1]) [SrcFile.mk "f" 5 (some "x")]).cur]) :=
  batch_bounds (fun _ => some [1]) (fun _ => rfl) [SrcFile.mk "f" 5 (some "x")]
